import Mathlib

/-!
Shallow embedding of `src/prompts.ts`: interactive selection prompts over
Firebase projects, apps and hosting sites.  Promises are modelled as already
resolved values; the array state threaded through the fuzzy-search query
handlers models the (shared, mutable) JavaScript array a resolved promise
yields; backend side effects are recorded in an explicit operation log.
-/

/-- The create-new sentinel value, `NEW_OPTION` in the source. -/
def NEW_OPTION : String := "(~~new~~)"

/-- The type tag of a default hosting site, `DEFAULT_SITE_TYPE` in the source. -/
def DEFAULT_SITE_TYPE : String := "DEFAULT_SITE"

/-- A Firebase project record, with the two fields the source reads. -/
structure FirebaseProject where
  projectId : String
  displayName : String
  deriving Repr, DecidableEq

/-- A Firebase app record; `appId` is optional since the source guards it
with optional chaining and truthiness (it may be absent in JavaScript). -/
structure FirebaseApp where
  appId : Option String
  displayName : String
  deriving Repr, DecidableEq

/-- A Firebase hosting-site record; `name`, `type` and `appId` are optional
to model absent JavaScript fields (the synthetic create-new row has no
`type` and the stubbed default site has `appId: undefined`). -/
structure FirebaseHostingSite where
  name : Option String
  defaultUrl : String
  type : Option String
  appId : Option String
  deriving Repr, DecidableEq

/-- The suffix of a character list after its last occurrence of the slash,
the whole list when no slash occurs; embeds the JavaScript idiom
`s.split('/').pop()` applied to a non-empty string. -/
def lastSeg : List Char → List Char
  | [] => []
  | c :: cs =>
    if c = '/' then lastSeg cs
    else if ('/' : Char) ∈ cs then lastSeg cs
    else c :: cs

/-- String version of `lastSeg`. -/
def lastSegment (s : String) : String := String.mk (lastSeg s.data)

/-- Embeds `shortAppId` from the source:
`(app?: FirebaseApp) => app?.appId && app.appId.split('/').pop()`.
`none` stands for the JavaScript `undefined`; an empty `appId` is returned
as-is by the short-circuiting `&&`. -/
def shortAppId (app : Option FirebaseApp) : Option String :=
  match app with
  | none => none
  | some a =>
    match a.appId with
    | none => none
    | some s => if s = "" then some "" else some (lastSegment s)

/-- Embeds `shortSiteName` from the source:
`(site?: FirebaseHostingSite) => site?.name && site.name.split('/').pop()`. -/
def shortSiteName (site : Option FirebaseHostingSite) : Option String :=
  match site with
  | none => none
  | some st =>
    match st.name with
    | none => none
    | some s => if s = "" then some "" else some (lastSegment s)

/-- Wrapper object produced by the fuzzy library for a match: it carries the
matched element in its `original` field (plus match metadata, of which we
keep the index). -/
structure FilterResult (α : Type) where
  original : α
  index : Nat
  deriving Repr, DecidableEq

/-- An element of a fuzzy-filter result sequence: either the raw candidate
record or a `FilterResult` wrapper — the type-ambiguous union the source's
`isProject` / `isApp` / `isSite` guards discriminate. -/
inductive FuzzyElem (α : Type) where
  | raw (record : α)
  | wrapped (wrapper : FilterResult α)
  deriving Repr, DecidableEq

/-- Reading the JavaScript field `original` from an element of the union: a
raw candidate record has no such field (`undefined`, i.e. `none`); a wrapper
yields its `original`. -/
def FuzzyElem.readOriginal : FuzzyElem α → Option α
  | .raw _ => none
  | .wrapped w => some w.original

/-- Embeds the normalization branch repeated in each adapter:
`if (isX(result)) original = result; else original = result.original;`.
On a raw element the guard holds (its `original` field is `undefined`) and
the element itself is taken; on a wrapper the guard fails and the wrapper's
`original` field is taken. -/
def FuzzyElem.normalize : FuzzyElem α → α
  | .raw record => record
  | .wrapped w => w.original

/-- Embeds `isProject`: `(elem as { original }).original === undefined`. -/
def isProject (elem : FuzzyElem FirebaseProject) : Bool :=
  elem.readOriginal.isNone

/-- Embeds `isApp`: `(elem as { original }).original === undefined`. -/
def isApp (elem : FuzzyElem FirebaseApp) : Bool :=
  elem.readOriginal.isNone

/-- Embeds `isSite`: `(elem as { original }).original === undefined`. -/
def isSite (elem : FuzzyElem FirebaseHostingSite) : Bool :=
  elem.readOriginal.isNone

/-- Lower-cased character list of a string. -/
def lowerChars (s : String) : List Char := s.data.map Char.toLower

/-- Subsequence test on character lists. -/
def isSubseq : List Char → List Char → Bool
  | [], _ => true
  | _ :: _, [] => false
  | p :: ps, c :: cs => if p = c then isSubseq ps cs else isSubseq (p :: ps) cs

/-- Modelled from the spec: the third-party fuzzy library (not part of this
repository) matches a query against a string by case-insensitive
approximate substring/subsequence match; the empty query matches
everything. -/
def fuzzyTest (pattern s : String) : Bool :=
  isSubseq (lowerChars pattern) (lowerChars s)

/-- Modelled from the spec: `fuzzy.filter(pattern, arr, { extract })` keeps,
in their original order, the elements whose extracted text matches the
query, each delivered as a wrapper carrying the original element and its
index in the input list; on the empty query this degrades to all
candidates in their original order. -/
def fuzzyFilterFrom (pattern : String) (extract : α → String) : Nat → List α → List (FuzzyElem α)
  | _, [] => []
  | idx, x :: xs =>
    if fuzzyTest pattern (extract x) then
      FuzzyElem.wrapped ⟨x, idx⟩ :: fuzzyFilterFrom pattern extract (idx + 1) xs
    else
      fuzzyFilterFrom pattern extract (idx + 1) xs

/-- Top-level fuzzy filter, indices starting at 0. -/
def fuzzyFilter (pattern : String) (arr : List α) (extract : α → String) : List (FuzzyElem α) :=
  fuzzyFilterFrom pattern extract 0 arr

/-- The uniform selectable-choice shape handed to the prompt renderer. -/
structure Choice (v : Type) where
  name : String
  title : String
  value : v
  deriving Repr, DecidableEq

/-- The synthetic create-new row `searchProjects` unshifts onto the list. -/
def newProjectRow : FirebaseProject :=
  ⟨NEW_OPTION, "[CREATE NEW PROJECT]"⟩

/-- The synthetic create-new row `searchApps` unshifts onto the list. -/
def newAppRow : FirebaseApp :=
  ⟨some NEW_OPTION, "[CREATE NEW APP]"⟩

/-- The synthetic create-new row `searchSites` unshifts onto the list; its
`type` and `appId` fields are absent in the source object literal. -/
def newSiteRow : FirebaseHostingSite :=
  ⟨some NEW_OPTION, "[CREATE NEW SITE]", none, none⟩

/-- Choice built from a project record inside `searchProjects`. -/
def projectChoice (original : FirebaseProject) : Choice String :=
  ⟨original.displayName, original.displayName, original.projectId⟩

/-- Choice built from an app record inside `searchApps`. -/
def appChoice (original : FirebaseApp) : Choice (Option String) :=
  ⟨original.displayName, original.displayName, shortAppId (some original)⟩

/-- Choice built from a site record inside `searchSites`. -/
def siteChoice (original : FirebaseHostingSite) : Choice (Option String) :=
  ⟨original.defaultUrl, original.defaultUrl, shortSiteName (some original)⟩

/-- Embeds one invocation of the query handler built by `searchProjects`.
The input list is the array the shared promise resolved to; because the
source calls `projects.unshift(...)` on that very array, the handler both
reads and mutates it, so the model returns the post-call array state
alongside the produced choices. -/
def searchProjects (projectsState : List FirebaseProject) (input : String) :
    List FirebaseProject × List (Choice String) :=
  let projects := newProjectRow :: projectsState
  (projects,
    (fuzzyFilter input projects (fun el => el.projectId ++ " " ++ el.displayName)).map
      (fun result => projectChoice result.normalize))

/-- Embeds one invocation of the query handler built by `searchApps`
(see `searchProjects` for the array-state convention). -/
def searchApps (appsState : List FirebaseApp) (input : String) :
    List FirebaseApp × List (Choice (Option String)) :=
  let apps := newAppRow :: appsState
  (apps,
    (fuzzyFilter input apps (fun el => el.displayName)).map
      (fun result => appChoice result.normalize))

/-- Embeds one invocation of the query handler built by `searchSites`
(see `searchProjects` for the array-state convention). -/
def searchSites (sitesState : List FirebaseHostingSite) (input : String) :
    List FirebaseHostingSite × List (Choice (Option String)) :=
  let sites := newSiteRow :: sitesState
  (sites,
    (fuzzyFilter input sites (fun el => el.defaultUrl)).map
      (fun result => siteChoice result.normalize))

/-- Backend API operations a resource flow can invoke, for the effect log. -/
inductive BackendOp where
  | projectsList
  | projectsCreate
  | appsList
  | appsCreate
  | sitesList
  | sitesCreate
  deriving Repr, DecidableEq, BEq

/-- Outcome of a resource flow at the JavaScript runtime level: either an
exception propagates (`threw`) or the flow returns normally, possibly with
`undefined` (`returned none`). -/
inductive FlowOutcome (α : Type) where
  | threw
  | returned (value : Option α)
  deriving Repr, DecidableEq

/-- The synthetic default-site record `sitePrompt` fabricates when the
backend reports zero sites for the project. -/
def defaultSiteStub (project : String) : FirebaseHostingSite :=
  ⟨some project, "https://" ++ project ++ ".web.app", some DEFAULT_SITE_TYPE, none⟩

/-- Embeds the `.then` continuation on `hosting.sites.list` inside
`sitePrompt`: an empty site list is replaced by the single stubbed default
site, a non-empty one is passed through unchanged. -/
def siteListFallback (project : String) (fetched : List FirebaseHostingSite) :
    List FirebaseHostingSite :=
  if fetched.length = 0 then [defaultSiteStub project] else fetched

/-- Embeds `projectPrompt`.  `backendProjects` is what the single
`projects.list` call resolves to; `queries` are the query strings the
autocomplete prompt feeds to the handler (one handler invocation each, all
mutating the one shared array); `projectId` is the value the prompt
returns; `created` is what `projects.create` would resolve to on the
create-new branch.  The first component is the backend operation log. -/
def projectPromptRun (backendProjects : List FirebaseProject) (queries : List String)
    (projectId : String) (created : FirebaseProject) :
    List BackendOp × FlowOutcome FirebaseProject :=
  let fetched := backendProjects
  let log := [BackendOp.projectsList]
  let arr := queries.foldl (fun a q => (searchProjects a q).fst) fetched
  if projectId == NEW_OPTION then
    (log ++ [BackendOp.projectsCreate], FlowOutcome.returned (some created))
  else
    (log, FlowOutcome.returned (arr.find? (fun it => it.projectId == projectId)))

/-- Embeds `appPrompt` (conventions as in `projectPromptRun`); the selected
`appId` is an optional string since app choices carry `shortAppId` values,
and the final lookup compares by `shortAppId(it) === appId`. -/
def appPromptRun (backendApps : List FirebaseApp) (queries : List String)
    (appId : Option String) (created : FirebaseApp) :
    List BackendOp × FlowOutcome FirebaseApp :=
  let fetched := backendApps
  let log := [BackendOp.appsList]
  let arr := queries.foldl (fun a q => (searchApps a q).fst) fetched
  if appId == some NEW_OPTION then
    (log ++ [BackendOp.appsCreate], FlowOutcome.returned (some created))
  else
    (log, FlowOutcome.returned (arr.find? (fun it => shortAppId (some it) == appId)))

/-- Embeds `sitePrompt` (conventions as in `projectPromptRun`); the fetched
list goes through `siteListFallback`, and the final lookup compares by
`shortSiteName(it) === siteName`. -/
def sitePromptRun (project : String) (backendSites : List FirebaseHostingSite)
    (queries : List String) (siteName : Option String) (created : FirebaseHostingSite) :
    List BackendOp × FlowOutcome FirebaseHostingSite :=
  let fetched := siteListFallback project backendSites
  let log := [BackendOp.sitesList]
  let arr := queries.foldl (fun a q => (searchSites a q).fst) fetched
  if siteName == some NEW_OPTION then
    (log ++ [BackendOp.sitesCreate], FlowOutcome.returned (some created))
  else
    (log, FlowOutcome.returned (arr.find? (fun it => shortSiteName (some it) == siteName)))

/-- An authenticated account, identified here by its email. -/
structure Account where
  email : String
  deriving Repr, DecidableEq

/-- One entry of the `login.list()` result, holding a `user` record. -/
structure UserEntry where
  user : Account
  deriving Repr, DecidableEq

/-- Login-related backend operations, for the account-flow effect log. -/
inductive LoginOp where
  | list
  | bare
  | withOptions
  | add
  deriving Repr, DecidableEq, BEq

/-- What the login backend would answer to each call `userPrompt` makes:
`users` is the `login.list()` result (`none` models a falsy result),
`bareResult` the value of a bare `login()`, `optionsResult` the value of
`login(options)`, `addResult` the value of `login.add()`. -/
structure LoginBackend where
  users : Option (List UserEntry)
  bareResult : Account
  optionsResult : Account
  addResult : Account
  deriving Repr, DecidableEq

/-- The value the account-list prompt returns: either the alternate-login
sentinel choice or an existing account's record. -/
inductive UserSelection where
  | newAccount
  | existing (a : Account)
  deriving Repr, DecidableEq

/-- Embeds `userPrompt`: `login.list()` first; on a falsy or empty result a
bare `login()` (whose result is discarded) then `login(options)` whose
result is returned; otherwise `login(options)` fetches the default user and
the list prompt's selection decides between `login.add()` and the chosen
account.  The first component is the login operation log, in call order. -/
def userPrompt (b : LoginBackend) (sel : UserSelection) : List LoginOp × Account :=
  match b.users with
  | none => ([LoginOp.list, LoginOp.bare, LoginOp.withOptions], b.optionsResult)
  | some us =>
    if us.length = 0 then
      ([LoginOp.list, LoginOp.bare, LoginOp.withOptions], b.optionsResult)
    else
      match sel with
      | UserSelection.newAccount =>
        ([LoginOp.list, LoginOp.withOptions, LoginOp.add], b.addResult)
      | UserSelection.existing a =>
        ([LoginOp.list, LoginOp.withOptions], a)

theorem isSubseq_nil_left (cs : List Char) : isSubseq [] cs = true := by
  cases cs <;> rfl

theorem fuzzyTest_empty (s : String) : fuzzyTest "" s = true := by
  unfold fuzzyTest
  have h : lowerChars "" = [] := rfl
  rw [h]
  exact isSubseq_nil_left _

theorem fuzzyFilterFrom_empty_map (ex : α → String) (g : α → β) :
    ∀ (l : List α) (n : Nat),
      (fuzzyFilterFrom "" ex n l).map (fun r => g r.normalize) = l.map g := by
  intro l
  induction l with
  | nil => intro n; rfl
  | cons x xs ih =>
    intro n
    rw [show fuzzyFilterFrom "" ex n (x :: xs)
          = FuzzyElem.wrapped ⟨x, n⟩ :: fuzzyFilterFrom "" ex (n + 1) xs from by
        simp [fuzzyFilterFrom, fuzzyTest_empty]]
    rw [List.map_cons, List.map_cons, ih]
    rfl

theorem searchProjects_fst (a : List FirebaseProject) (q : String) :
    (searchProjects a q).fst = newProjectRow :: a := rfl

theorem find?_skip_foldl_projects (p : FirebaseProject → Bool) (hrow : p newProjectRow = false)
    (qs : List String) :
    ∀ a, (qs.foldl (fun a q => (searchProjects a q).fst) a).find? p = a.find? p := by
  induction qs with
  | nil => intro a; rfl
  | cons q qs ih =>
    intro a
    show (qs.foldl _ (newProjectRow :: a)).find? p = _
    rw [ih]
    simp [List.find?, hrow]

theorem find?_eq_some_of_unique (p : α → Bool) (r : α) :
    ∀ (l : List α), r ∈ l → p r = true → (∀ x ∈ l, p x = true → x = r) →
      l.find? p = some r := by
  intro l
  induction l with
  | nil => intro h; cases h
  | cons x xs ih =>
    intro hmem hpr huniq
    by_cases hx : p x = true
    · have hxr : x = r := huniq x (List.mem_cons_self x xs) hx
      subst hxr
      simp [List.find?, hx]
    · have hx' : p x = false := by simpa using hx
      have hrx : r ≠ x := fun e => hx (e ▸ hpr)
      have hmem' : r ∈ xs := by
        cases hmem with
        | head => exact absurd rfl hrx
        | tail _ h => exact h
      rw [List.find?]
      rw [hx']
      exact ih hmem' hpr (fun y hy hp => huniq y (List.mem_cons_of_mem _ hy) hp)

theorem lastSeg_of_not_mem : ∀ (cs : List Char), ('/' : Char) ∉ cs → lastSeg cs = cs := by
  intro cs
  induction cs with
  | nil => intro _; rfl
  | cons c cs ih =>
    intro h
    have hc : c ≠ '/' := fun e => h (e ▸ List.mem_cons_self c cs)
    have hcs : ('/' : Char) ∉ cs := fun e => h (List.mem_cons_of_mem _ e)
    simp [lastSeg, hc, hcs]

theorem lastSeg_append (us : List Char) (hu : ('/' : Char) ∉ us) :
    ∀ ts, lastSeg (ts ++ '/' :: us) = us := by
  intro ts
  induction ts with
  | nil =>
    simp [lastSeg, lastSeg_of_not_mem us hu]
  | cons c ts ih =>
    by_cases hc : c = '/'
    · simpa [lastSeg, hc] using ih
    · have hmem : ('/' : Char) ∈ ts ++ '/' :: us := by simp
      simpa [lastSeg, hc, hmem] using ih

theorem string_mk_eq_empty {cs : List Char} (h : String.mk cs = "") : cs = [] := by
  have := congrArg String.data h
  simpa using this

theorem searchApps_fst (a : List FirebaseApp) (q : String) :
    (searchApps a q).fst = newAppRow :: a := rfl

theorem searchSites_fst (a : List FirebaseHostingSite) (q : String) :
    (searchSites a q).fst = newSiteRow :: a := rfl

theorem find?_skip_foldl_apps (p : FirebaseApp → Bool) (hrow : p newAppRow = false)
    (qs : List String) :
    ∀ a, (qs.foldl (fun a q => (searchApps a q).fst) a).find? p = a.find? p := by
  induction qs with
  | nil => intro a; rfl
  | cons q qs ih =>
    intro a
    show (qs.foldl _ (newAppRow :: a)).find? p = _
    rw [ih]
    simp [List.find?, hrow]

theorem find?_skip_foldl_sites (p : FirebaseHostingSite → Bool) (hrow : p newSiteRow = false)
    (qs : List String) :
    ∀ a, (qs.foldl (fun a q => (searchSites a q).fst) a).find? p = a.find? p := by
  induction qs with
  | nil => intro a; rfl
  | cons q qs ih =>
    intro a
    show (qs.foldl _ (newSiteRow :: a)).find? p = _
    rw [ih]
    simp [List.find?, hrow]

/-- C4: the result normalizer classifies an element as a wrapper iff reading
its `original` field yields a defined value, and in both branches yields the
original candidate record (round-trip for raw records and for wrappers). -/
theorem C4_normalize_roundtrip :
    (∀ e : FuzzyElem FirebaseProject, isProject e = true ↔ e.readOriginal = none) ∧
    (∀ e : FuzzyElem FirebaseApp, isApp e = true ↔ e.readOriginal = none) ∧
    (∀ e : FuzzyElem FirebaseHostingSite, isSite e = true ↔ e.readOriginal = none) ∧
    (∀ r : FirebaseProject, FuzzyElem.normalize (FuzzyElem.raw r) = r) ∧
    (∀ (r : FirebaseProject) (i : Nat), FuzzyElem.normalize (FuzzyElem.wrapped ⟨r, i⟩) = r) ∧
    (∀ a : FirebaseApp, FuzzyElem.normalize (FuzzyElem.raw a) = a) ∧
    (∀ (a : FirebaseApp) (i : Nat), FuzzyElem.normalize (FuzzyElem.wrapped ⟨a, i⟩) = a) ∧
    (∀ s : FirebaseHostingSite, FuzzyElem.normalize (FuzzyElem.raw s) = s) ∧
    (∀ (s : FirebaseHostingSite) (i : Nat), FuzzyElem.normalize (FuzzyElem.wrapped ⟨s, i⟩) = s) := by
  refine ⟨?_, ?_, ?_, fun r => rfl, fun r i => rfl, fun a => rfl, fun a i => rfl,
    fun s => rfl, fun s i => rfl⟩ <;>
  · intro e
    cases e <;> simp [isProject, isApp, isSite, FuzzyElem.readOriginal]

/-- C5: on the empty query each adapter returns one choice per original
candidate in their original order plus exactly one create-new choice first
(single handler invocation on the freshly fetched list). -/
theorem C5_empty_query (stP : List FirebaseProject) (stA : List FirebaseApp)
    (stS : List FirebaseHostingSite) :
    (searchProjects stP "").snd = projectChoice newProjectRow :: stP.map projectChoice ∧
    (searchApps stA "").snd = appChoice newAppRow :: stA.map appChoice ∧
    (searchSites stS "").snd = siteChoice newSiteRow :: stS.map siteChoice := by
  refine ⟨?_, ?_, ?_⟩
  · have h := fuzzyFilterFrom_empty_map (fun el : FirebaseProject => el.projectId ++ " " ++ el.displayName)
      projectChoice (newProjectRow :: stP) 0
    simpa [searchProjects, fuzzyFilter] using h
  · have h := fuzzyFilterFrom_empty_map (fun el : FirebaseApp => el.displayName)
      appChoice (newAppRow :: stA) 0
    simpa [searchApps, fuzzyFilter] using h
  · have h := fuzzyFilterFrom_empty_map (fun el : FirebaseHostingSite => el.defaultUrl)
      siteChoice (newSiteRow :: stS) 0
    simpa [searchSites, fuzzyFilter] using h

/-- C2: the query handlers mutate the shared resolved array in place (the
source calls `unshift` on it): after a call the array holds an extra
create-new row, and a second call prepends yet another one. -/
theorem C2_shared_array_mutated :
    ((searchProjects [FirebaseProject.mk "p1" "P One"] "").fst
        ≠ [FirebaseProject.mk "p1" "P One"]) ∧
    ((searchProjects (searchProjects [FirebaseProject.mk "p1" "P One"] "").fst "").fst
        = [newProjectRow, newProjectRow, FirebaseProject.mk "p1" "P One"]) ∧
    ((searchApps [FirebaseApp.mk (some "apps/a1") "A One"] "").fst
        ≠ [FirebaseApp.mk (some "apps/a1") "A One"]) ∧
    ((searchSites [defaultSiteStub "p1"] "").fst ≠ [defaultSiteStub "p1"]) := by
  decide

/-- C3 counterexample: for the query "z" none of the three adapters returns
any choice whose value is the create-new sentinel (the sentinel row's label
does not fuzzy-match the query and is filtered out). -/
theorem C3_counterexample :
    (¬ ∃ c ∈ (searchProjects [] "z").snd, c.value = NEW_OPTION) ∧
    (¬ ∃ c ∈ (searchApps [] "z").snd, c.value = some NEW_OPTION) ∧
    (¬ ∃ c ∈ (searchSites [] "z").snd, c.value = some NEW_OPTION) := by
  decide

/-- C3 amended: each adapter's result contains a create-new choice whenever
the query fuzzy-matches the sentinel row's searchable text (in particular
for the empty query); otherwise the sentinel may be filtered out. -/
theorem C3_amended (stP : List FirebaseProject) (stA : List FirebaseApp)
    (stS : List FirebaseHostingSite) (q : String)
    (hP : fuzzyTest q (newProjectRow.projectId ++ " " ++ newProjectRow.displayName) = true)
    (hA : fuzzyTest q newAppRow.displayName = true)
    (hS : fuzzyTest q newSiteRow.defaultUrl = true) :
    (∃ c ∈ (searchProjects stP q).snd, c.value = NEW_OPTION) ∧
    (∃ c ∈ (searchApps stA q).snd, c.value = some NEW_OPTION) ∧
    (∃ c ∈ (searchSites stS q).snd, c.value = some NEW_OPTION) := by
  refine ⟨⟨projectChoice newProjectRow, ?_, rfl⟩,
    ⟨appChoice newAppRow, ?_, by decide⟩, ⟨siteChoice newSiteRow, ?_, by decide⟩⟩
  · show projectChoice newProjectRow ∈
      (fuzzyFilter q (newProjectRow :: stP) (fun el => el.projectId ++ " " ++ el.displayName)).map
        (fun result => projectChoice result.normalize)
    rw [show fuzzyFilter q (newProjectRow :: stP) (fun el => el.projectId ++ " " ++ el.displayName)
          = FuzzyElem.wrapped ⟨newProjectRow, 0⟩
            :: fuzzyFilterFrom q (fun el => el.projectId ++ " " ++ el.displayName) 1 stP from by
        simp [fuzzyFilter, fuzzyFilterFrom, hP]]
    exact List.mem_cons_self _ _
  · show appChoice newAppRow ∈
      (fuzzyFilter q (newAppRow :: stA) (fun el => el.displayName)).map
        (fun result => appChoice result.normalize)
    rw [show fuzzyFilter q (newAppRow :: stA) (fun el => el.displayName)
          = FuzzyElem.wrapped ⟨newAppRow, 0⟩
            :: fuzzyFilterFrom q (fun el => el.displayName) 1 stA from by
        simp [fuzzyFilter, fuzzyFilterFrom, hA]]
    exact List.mem_cons_self _ _
  · show siteChoice newSiteRow ∈
      (fuzzyFilter q (newSiteRow :: stS) (fun el => el.defaultUrl)).map
        (fun result => siteChoice result.normalize)
    rw [show fuzzyFilter q (newSiteRow :: stS) (fun el => el.defaultUrl)
          = FuzzyElem.wrapped ⟨newSiteRow, 0⟩
            :: fuzzyFilterFrom q (fun el => el.defaultUrl) 1 stS from by
        simp [fuzzyFilter, fuzzyFilterFrom, hS]]
    exact List.mem_cons_self _ _

/-- Witness for C3 amended at the empty query on empty candidate lists. -/
theorem C3_witness :
    (∃ c ∈ (searchProjects [] "").snd, c.value = NEW_OPTION) ∧
    (∃ c ∈ (searchApps [] "").snd, c.value = some NEW_OPTION) ∧
    (∃ c ∈ (searchSites [] "").snd, c.value = some NEW_OPTION) :=
  C3_amended [] [] [] "" (by decide) (by decide) (by decide)

/-- C6: in each resource flow the backend list operation appears exactly
once in the effect log, whatever the number of query-handler invocations
and whichever branch (create-new or selection) is taken: the handlers and
the final lookup consume the one shared fetch. -/
theorem C6_single_fetch (psB : List FirebaseProject) (qsP : List String) (selP : String)
    (crP : FirebaseProject) (asB : List FirebaseApp) (qsA : List String)
    (selA : Option String) (crA : FirebaseApp) (project : String)
    (ssB : List FirebaseHostingSite) (qsS : List String) (selS : Option String)
    (crS : FirebaseHostingSite) :
    (projectPromptRun psB qsP selP crP).fst.count BackendOp.projectsList = 1 ∧
    (appPromptRun asB qsA selA crA).fst.count BackendOp.appsList = 1 ∧
    (sitePromptRun project ssB qsS selS crS).fst.count BackendOp.sitesList = 1 := by
  refine ⟨?_, ?_, ?_⟩ <;>
  · simp only [projectPromptRun, appPromptRun, sitePromptRun]
    split <;> rfl

/-- C7: with an empty backend site list the candidate pool is exactly the
locally fabricated default-site record (default type tag, derived URL),
plus the create-new row the adapter prepends; a non-empty backend list is
used unchanged. -/
theorem C7_site_fallback (project : String) (q : String) (l : List FirebaseHostingSite)
    (h : l ≠ []) :
    siteListFallback project [] = [defaultSiteStub project] ∧
    (defaultSiteStub project).type = some DEFAULT_SITE_TYPE ∧
    (defaultSiteStub project).defaultUrl = "https://" ++ project ++ ".web.app" ∧
    (searchSites (siteListFallback project []) q).fst = [newSiteRow, defaultSiteStub project] ∧
    siteListFallback project l = l := by
  refine ⟨rfl, rfl, rfl, rfl, ?_⟩
  unfold siteListFallback
  rw [if_neg (by simpa using h)]

/-- Witness for C7 at a concrete project and a concrete non-empty list. -/
theorem C7_witness :
    siteListFallback "demo" [] = [defaultSiteStub "demo"] ∧
    (defaultSiteStub "demo").type = some DEFAULT_SITE_TYPE ∧
    (defaultSiteStub "demo").defaultUrl = "https://" ++ "demo" ++ ".web.app" ∧
    (searchSites (siteListFallback "demo" []) "").fst = [newSiteRow, defaultSiteStub "demo"] ∧
    siteListFallback "demo" [newSiteRow] = [newSiteRow] :=
  C7_site_fallback "demo" "" [newSiteRow] (by decide)

/-- C8: with zero (or absent) stored accounts the account flow performs, in
order, the list call, a bare login and a login with options, and returns
the result of the login-with-options call. -/
theorem C8_empty_accounts (b : LoginBackend) (sel : UserSelection)
    (h : b.users = none ∨ b.users = some []) :
    userPrompt b sel = ([LoginOp.list, LoginOp.bare, LoginOp.withOptions], b.optionsResult) := by
  rcases h with h | h <;> simp [userPrompt, h]

/-- Witness for C8 with an absent account list. -/
theorem C8_witness :
    userPrompt
        (LoginBackend.mk none (Account.mk "bare@example.com") (Account.mk "opts@example.com")
          (Account.mk "add@example.com")) UserSelection.newAccount
      = ([LoginOp.list, LoginOp.bare, LoginOp.withOptions], Account.mk "opts@example.com") :=
  C8_empty_accounts _ _ (Or.inl rfl)

/-- C1 counterexample: selecting a non-sentinel value that matches no
fetched record makes `projectPrompt` return normally with `undefined`
instead of throwing: the trailing non-null assertion on `find` is
compile-time only. -/
theorem C1_counterexample :
    (projectPromptRun [FirebaseProject.mk "p1" "P One"] [] "zz" (FirebaseProject.mk "c" "C")).snd
        = FlowOutcome.returned none ∧
    (projectPromptRun [FirebaseProject.mk "p1" "P One"] [] "zz" (FirebaseProject.mk "c" "C")).snd
        ≠ FlowOutcome.threw := by
  decide

/-- C1 amended: in each resource flow, a non-sentinel selection with no
matching record in the resolved list makes the flow return normally with
`undefined` (no record) — it does not throw. -/
theorem C1_amended (psB : List FirebaseProject) (qsP : List String) (selP : String)
    (crP : FirebaseProject) (asB : List FirebaseApp) (qsA : List String)
    (selA : Option String) (crA : FirebaseApp) (project : String)
    (ssB : List FirebaseHostingSite) (qsS : List String) (selS : Option String)
    (crS : FirebaseHostingSite)
    (hP0 : selP ≠ NEW_OPTION) (hP1 : ∀ r ∈ psB, r.projectId ≠ selP)
    (hA0 : selA ≠ some NEW_OPTION) (hA1 : ∀ a ∈ asB, shortAppId (some a) ≠ selA)
    (hS0 : selS ≠ some NEW_OPTION)
    (hS1 : ∀ s ∈ siteListFallback project ssB, shortSiteName (some s) ≠ selS) :
    (projectPromptRun psB qsP selP crP).snd = FlowOutcome.returned none ∧
    (appPromptRun asB qsA selA crA).snd = FlowOutcome.returned none ∧
    (sitePromptRun project ssB qsS selS crS).snd = FlowOutcome.returned none := by
  have hifP : (selP == NEW_OPTION) = false := beq_eq_false_iff_ne.mpr hP0
  have hifA : (selA == some NEW_OPTION) = false := beq_eq_false_iff_ne.mpr hA0
  have hifS : (selS == some NEW_OPTION) = false := beq_eq_false_iff_ne.mpr hS0
  have hrowP : (newProjectRow.projectId == selP) = false :=
    beq_eq_false_iff_ne.mpr (fun e => hP0 e.symm)
  have hrowA : (shortAppId (some newAppRow) == selA) = false := by
    rw [show shortAppId (some newAppRow) = some NEW_OPTION from by decide]
    exact beq_eq_false_iff_ne.mpr (fun e => hA0 e.symm)
  have hrowS : (shortSiteName (some newSiteRow) == selS) = false := by
    rw [show shortSiteName (some newSiteRow) = some NEW_OPTION from by decide]
    exact beq_eq_false_iff_ne.mpr (fun e => hS0 e.symm)
  refine ⟨?_, ?_, ?_⟩
  · have hfind : (qsP.foldl (fun a q => (searchProjects a q).fst) psB).find?
        (fun it => it.projectId == selP) = none := by
      rw [find?_skip_foldl_projects _ hrowP]
      exact List.find?_eq_none.mpr (fun x hx h => hP1 x hx (beq_iff_eq.mp h))
    simp [projectPromptRun, hifP, hfind]
  · have hfind : (qsA.foldl (fun a q => (searchApps a q).fst) asB).find?
        (fun it => shortAppId (some it) == selA) = none := by
      rw [find?_skip_foldl_apps _ hrowA]
      exact List.find?_eq_none.mpr (fun x hx h => hA1 x hx (beq_iff_eq.mp h))
    simp [appPromptRun, hifA, hfind]
  · have hfind : (qsS.foldl (fun a q => (searchSites a q).fst) (siteListFallback project ssB)).find?
        (fun it => shortSiteName (some it) == selS) = none := by
      rw [find?_skip_foldl_sites _ hrowS]
      exact List.find?_eq_none.mpr (fun x hx h => hS1 x hx (beq_iff_eq.mp h))
    simp [sitePromptRun, hifS, hfind]

/-- Witness for C1 amended at concrete non-matching selections. -/
theorem C1_witness :
    (projectPromptRun [FirebaseProject.mk "p1" "P One"] ["a"] "zz"
        (FirebaseProject.mk "c" "C")).snd = FlowOutcome.returned none ∧
    (appPromptRun [FirebaseApp.mk (some "apps/a1") "A One"] ["a"] (some "zz")
        (FirebaseApp.mk (some "apps/c") "C")).snd = FlowOutcome.returned none ∧
    (sitePromptRun "demo" [] ["a"] (some "zz")
        (defaultSiteStub "other")).snd = FlowOutcome.returned none :=
  C1_amended [FirebaseProject.mk "p1" "P One"] ["a"] "zz" (FirebaseProject.mk "c" "C")
    [FirebaseApp.mk (some "apps/a1") "A One"] ["a"] (some "zz") (FirebaseApp.mk (some "apps/c") "C")
    "demo" [] ["a"] (some "zz") (defaultSiteStub "other")
    (by decide) (by decide) (by decide) (by decide) (by decide) (by decide)

/-- C9: when the resolved list holds a record whose short identifier is
exactly the selected value (and it is the only such record), each flow
returns that very record: the lookup is whole-identifier equality, so ids
that merely contain the selection as a substring are not returned. -/
theorem C9_exact_id_match (psB : List FirebaseProject) (qsP : List String) (selP : String)
    (crP r : FirebaseProject) (asB : List FirebaseApp) (qsA : List String)
    (selA : Option String) (crA a : FirebaseApp) (project : String)
    (ssB : List FirebaseHostingSite) (qsS : List String) (selS : Option String)
    (crS s : FirebaseHostingSite)
    (hP0 : selP ≠ NEW_OPTION) (hP1 : r ∈ psB) (hP2 : r.projectId = selP)
    (hP3 : ∀ x ∈ psB, x.projectId = selP → x = r)
    (hA0 : selA ≠ some NEW_OPTION) (hA1 : a ∈ asB) (hA2 : shortAppId (some a) = selA)
    (hA3 : ∀ x ∈ asB, shortAppId (some x) = selA → x = a)
    (hS0 : selS ≠ some NEW_OPTION) (hS1 : s ∈ siteListFallback project ssB)
    (hS2 : shortSiteName (some s) = selS)
    (hS3 : ∀ x ∈ siteListFallback project ssB, shortSiteName (some x) = selS → x = s) :
    (projectPromptRun psB qsP selP crP).snd = FlowOutcome.returned (some r) ∧
    (appPromptRun asB qsA selA crA).snd = FlowOutcome.returned (some a) ∧
    (sitePromptRun project ssB qsS selS crS).snd = FlowOutcome.returned (some s) := by
  have hifP : (selP == NEW_OPTION) = false := beq_eq_false_iff_ne.mpr hP0
  have hifA : (selA == some NEW_OPTION) = false := beq_eq_false_iff_ne.mpr hA0
  have hifS : (selS == some NEW_OPTION) = false := beq_eq_false_iff_ne.mpr hS0
  have hrowP : (newProjectRow.projectId == selP) = false :=
    beq_eq_false_iff_ne.mpr (fun e => hP0 e.symm)
  have hrowA : (shortAppId (some newAppRow) == selA) = false := by
    rw [show shortAppId (some newAppRow) = some NEW_OPTION from by decide]
    exact beq_eq_false_iff_ne.mpr (fun e => hA0 e.symm)
  have hrowS : (shortSiteName (some newSiteRow) == selS) = false := by
    rw [show shortSiteName (some newSiteRow) = some NEW_OPTION from by decide]
    exact beq_eq_false_iff_ne.mpr (fun e => hS0 e.symm)
  refine ⟨?_, ?_, ?_⟩
  · have hfind : (qsP.foldl (fun a q => (searchProjects a q).fst) psB).find?
        (fun it => it.projectId == selP) = some r := by
      rw [find?_skip_foldl_projects _ hrowP]
      exact find?_eq_some_of_unique _ _ psB hP1 (beq_iff_eq.mpr hP2)
        (fun x hx h => hP3 x hx (beq_iff_eq.mp h))
    simp [projectPromptRun, hifP, hfind]
  · have hfind : (qsA.foldl (fun a q => (searchApps a q).fst) asB).find?
        (fun it => shortAppId (some it) == selA) = some a := by
      rw [find?_skip_foldl_apps _ hrowA]
      exact find?_eq_some_of_unique _ _ asB hA1 (beq_iff_eq.mpr hA2)
        (fun x hx h => hA3 x hx (beq_iff_eq.mp h))
    simp [appPromptRun, hifA, hfind]
  · have hfind : (qsS.foldl (fun a q => (searchSites a q).fst) (siteListFallback project ssB)).find?
        (fun it => shortSiteName (some it) == selS) = some s := by
      rw [find?_skip_foldl_sites _ hrowS]
      exact find?_eq_some_of_unique _ _ (siteListFallback project ssB) hS1 (beq_iff_eq.mpr hS2)
        (fun x hx h => hS3 x hx (beq_iff_eq.mp h))
    simp [sitePromptRun, hifS, hfind]

/-- Witness for C9: lists with colliding-substring identifiers; the exact
match is returned. -/
theorem C9_witness :
    (projectPromptRun [FirebaseProject.mk "abc" "A", FirebaseProject.mk "abcd" "B"] ["q"] "abc"
        (FirebaseProject.mk "c" "C")).snd
      = FlowOutcome.returned (some (FirebaseProject.mk "abc" "A")) ∧
    (appPromptRun [FirebaseApp.mk (some "apps/abc") "X", FirebaseApp.mk (some "apps/abcd") "Y"]
        ["q"] (some "abc") (FirebaseApp.mk (some "apps/c") "C")).snd
      = FlowOutcome.returned (some (FirebaseApp.mk (some "apps/abc") "X")) ∧
    (sitePromptRun "demo"
        [FirebaseHostingSite.mk (some "sites/abc") "https://abc.web.app" none none,
         FirebaseHostingSite.mk (some "sites/abcd") "https://abcd.web.app" none none]
        ["q"] (some "abc") (defaultSiteStub "other")).snd
      = FlowOutcome.returned
          (some (FirebaseHostingSite.mk (some "sites/abc") "https://abc.web.app" none none)) :=
  C9_exact_id_match [FirebaseProject.mk "abc" "A", FirebaseProject.mk "abcd" "B"] ["q"] "abc"
    (FirebaseProject.mk "c" "C") (FirebaseProject.mk "abc" "A")
    [FirebaseApp.mk (some "apps/abc") "X", FirebaseApp.mk (some "apps/abcd") "Y"] ["q"]
    (some "abc") (FirebaseApp.mk (some "apps/c") "C") (FirebaseApp.mk (some "apps/abc") "X")
    "demo"
    [FirebaseHostingSite.mk (some "sites/abc") "https://abc.web.app" none none,
     FirebaseHostingSite.mk (some "sites/abcd") "https://abcd.web.app" none none]
    ["q"] (some "abc") (defaultSiteStub "other")
    (FirebaseHostingSite.mk (some "sites/abc") "https://abc.web.app" none none)
    (by decide) (by decide) (by decide) (by decide) (by decide) (by decide) (by decide)
    (by decide) (by decide) (by decide) (by decide) (by decide)

/-- C10: `shortAppId` and `shortSiteName` are total: an absent record, an
absent id field or an empty id yield a falsy value without raising, and a
non-empty id yields the substring after its last slash (the whole string
when no slash occurs). -/
theorem C10_short_id_totality (d u : String) (t ai : Option String) (cs ts us : List Char)
    (h1 : cs ≠ []) (h2 : ('/' : Char) ∉ cs) (h3 : ('/' : Char) ∉ us) :
    shortAppId none = none ∧
    shortSiteName none = none ∧
    shortAppId (some (FirebaseApp.mk none d)) = none ∧
    shortSiteName (some (FirebaseHostingSite.mk none u t ai)) = none ∧
    shortAppId (some (FirebaseApp.mk (some "") d)) = some "" ∧
    shortSiteName (some (FirebaseHostingSite.mk (some "") u t ai)) = some "" ∧
    shortAppId (some (FirebaseApp.mk (some (String.mk cs)) d)) = some (String.mk cs) ∧
    shortSiteName (some (FirebaseHostingSite.mk (some (String.mk cs)) u t ai))
      = some (String.mk cs) ∧
    shortAppId (some (FirebaseApp.mk (some (String.mk (ts ++ '/' :: us))) d))
      = some (String.mk us) ∧
    shortSiteName (some (FirebaseHostingSite.mk (some (String.mk (ts ++ '/' :: us))) u t ai))
      = some (String.mk us) := by
  have hne : String.mk cs ≠ "" := fun h => h1 (string_mk_eq_empty h)
  have hne2 : String.mk (ts ++ '/' :: us) ≠ "" := fun h => by
    have h' := string_mk_eq_empty h
    simp at h'
  have hlast : lastSegment (String.mk cs) = String.mk cs := by
    unfold lastSegment
    rw [show (String.mk cs).data = cs from rfl, lastSeg_of_not_mem cs h2]
  have hlast2 : lastSegment (String.mk (ts ++ '/' :: us)) = String.mk us := by
    unfold lastSegment
    rw [show (String.mk (ts ++ '/' :: us)).data = ts ++ '/' :: us from rfl,
      lastSeg_append us h3 ts]
  refine ⟨rfl, rfl, rfl, rfl, rfl, rfl, ?_, ?_, ?_, ?_⟩ <;>
    simp [shortAppId, shortSiteName, hne, hne2, hlast, hlast2]

/-- Witness for C10 at concrete ids with and without slashes. -/
theorem C10_witness :
    shortAppId none = none ∧
    shortSiteName none = none ∧
    shortAppId (some (FirebaseApp.mk none "D")) = none ∧
    shortSiteName (some (FirebaseHostingSite.mk none "U" none none)) = none ∧
    shortAppId (some (FirebaseApp.mk (some "") "D")) = some "" ∧
    shortSiteName (some (FirebaseHostingSite.mk (some "") "U" none none)) = some "" ∧
    shortAppId (some (FirebaseApp.mk (some (String.mk ['a', 'b'])) "D"))
      = some (String.mk ['a', 'b']) ∧
    shortSiteName (some (FirebaseHostingSite.mk (some (String.mk ['a', 'b'])) "U" none none))
      = some (String.mk ['a', 'b']) ∧
    shortAppId (some (FirebaseApp.mk (some (String.mk (['p', 'q'] ++ '/' :: ['x', 'y']))) "D"))
      = some (String.mk ['x', 'y']) ∧
    shortSiteName
        (some (FirebaseHostingSite.mk (some (String.mk (['p', 'q'] ++ '/' :: ['x', 'y'])))
          "U" none none))
      = some (String.mk ['x', 'y']) :=
  C10_short_id_totality "D" "U" none none ['a', 'b'] ['p', 'q'] ['x', 'y']
    (by decide) (by decide) (by decide)
